import Mathlib

/-!
Verification of the attribute subsystem of the NFTs pallet
(`frame/nfts/src/features/attributes.rs`).

The Rust code is shallowly embedded: every storage map is an association
list, machine integers are `Nat` with explicit saturation bounds, and the
fallible dispatchables return an outcome carrying the storage state as it
is at the moment the function returns (raw storage semantics: mutations
performed before an error are visible in the returned state; any rollback
is the business of the surrounding dispatch machinery, which is outside
this subsystem).
-/

namespace NftsAttributes

/-- Largest value of a `u32`; `saturating_inc` on the `u32` counters clamps here. -/
def UMAX32 : Nat := 4294967295

/-- Largest value of a `u128` balance; saturating balance arithmetic clamps here. -/
def UMAX128 : Nat := 340282366920938463463374607431768211455

/-- Saturating increment of a `u32` counter (`saturating_inc`). -/
def satInc32 (n : Nat) : Nat := min (n + 1) UMAX32

/-- Saturating addition of `u128` balances (`saturating_add` / `saturating_accrue`). -/
def satAdd128 (a b : Nat) : Nat := min (a + b) UMAX128

/-- Saturating multiplication of `u128` balances (`saturating_mul`). -/
def satMul128 (a b : Nat) : Nat := min (a * b) UMAX128

/-- Association-list lookup: first binding of the key, if any. -/
def mapGet {κ ν : Type} [DecidableEq κ] : List (κ × ν) → κ → Option ν
  | [], _ => none
  | (k', v) :: rest, k => if k' = k then some v else mapGet rest k

/-- Remove every binding of a key from an association list. -/
def mapRemove {κ ν : Type} [DecidableEq κ] : List (κ × ν) → κ → List (κ × ν)
  | [], _ => []
  | (k', v) :: rest, k =>
    if k' = k then mapRemove rest k else (k', v) :: mapRemove rest k

/-- Insert (or overwrite) the binding of a key in an association list. -/
def mapInsert {κ ν : Type} [DecidableEq κ] (m : List (κ × ν)) (k : κ) (v : ν) : List (κ × ν) :=
  (k, v) :: mapRemove m k

/-- Attribute namespaces (`AttributeNamespace` in the pallet). -/
inductive AttrNamespace where
  | CollectionOwner
  | ItemOwner
  | Account (who : Nat)
  | Pallet
deriving DecidableEq, Repr

/-- The deposit stored with an attribute record (`AttributeDeposit`). -/
structure AttributeDeposit where
  account : Option Nat
  amount : Nat
deriving DecidableEq, Repr

/-- Full key of the `Attribute` storage map:
collection id, optional item id, namespace, bounded byte key. -/
abbrev AttrKey := Nat × Option Nat × AttrNamespace × List Nat

/-- Value of the `Attribute` storage map: byte value plus deposit. -/
abbrev AttrVal := List Nat × AttributeDeposit

/-- The fields of `CollectionDetails` that this subsystem reads or writes. -/
structure CollectionDetails where
  owner : Nat
  attributes : Nat
  ownerDeposit : Nat
deriving DecidableEq, Repr

/-- The fields of `ItemDetails` this subsystem reads. -/
structure ItemDetails where
  owner : Nat
deriving DecidableEq, Repr

/-- The collection settings this subsystem reads (`CollectionSetting` flags). -/
structure CollectionConfig where
  unlockedAttributes : Bool
  depositRequired : Bool
deriving DecidableEq, Repr

/-- The item settings this subsystem reads (`ItemSetting` flags). -/
structure ItemConfig where
  unlockedAttributes : Bool
deriving DecidableEq, Repr

/-- Modelled from the spec: the Deposit Ledger external collaborator, keeping a
free and a reserved balance per account (`T::Currency`). -/
structure Ledger where
  free : List (Nat × Nat)
  reserved : List (Nat × Nat)
deriving DecidableEq, Repr

/-- Free balance of an account (zero when the account is unknown). -/
def Ledger.freeOf (l : Ledger) (a : Nat) : Nat := (mapGet l.free a).getD 0

/-- Reserved balance of an account (zero when the account is unknown). -/
def Ledger.reservedOf (l : Ledger) (a : Nat) : Nat := (mapGet l.reserved a).getD 0

/-- Errors surfaced by the embedded operations (`Error` in the pallet,
plus `InsufficientFunds` from the ledger and `NoConfig` from the config lookup). -/
inductive Err where
  | MethodDisabled
  | UnknownCollection
  | UnknownItem
  | NoPermission
  | LockedCollectionAttributes
  | LockedItemAttributes
  | AttributeNotFound
  | ReachedApprovalLimit
  | BadWitness
  | IncorrectData
  | InsufficientFunds
  | NoConfig
deriving DecidableEq, Repr

/-- Modelled from the spec: `reserve(account, amount)` is fallible — it moves
`amount` from free to reserved and fails with `InsufficientFunds` when the free
balance does not cover it. -/
def Ledger.reserve (l : Ledger) (a : Nat) (amt : Nat) : Except Err Ledger :=
  if l.freeOf a < amt then .error .InsufficientFunds
  else .ok { free := mapInsert l.free a (l.freeOf a - amt),
             reserved := mapInsert l.reserved a (l.reservedOf a + amt) }

/-- Modelled from the spec: `unreserve(account, amount)` is infallible — it moves
back at most the reserved balance. -/
def Ledger.unreserve (l : Ledger) (a : Nat) (amt : Nat) : Ledger :=
  let m := min amt (l.reservedOf a)
  { free := mapInsert l.free a (l.freeOf a + m),
    reserved := mapInsert l.reserved a (l.reservedOf a - m) }

/-- Pallet configuration constants used by this subsystem. -/
structure Cfg where
  depositPerByte : Nat
  attributeDepositBase : Nat
  approvalsLimit : Nat
deriving DecidableEq, Repr

/-- The storage state this subsystem touches: the `Attribute` map, the
`Collection`, `Item`, `ItemConfigOf`, `CollectionConfigOf` and
`ItemAttributesApprovalsOf` maps, the deposit ledger, and the
`Attributes` pallet-feature flag. -/
structure NftsState where
  Attribute : List (AttrKey × AttrVal)
  collection : List (Nat × CollectionDetails)
  item : List ((Nat × Nat) × ItemDetails)
  itemConfig : List ((Nat × Nat) × ItemConfig)
  collectionConfig : List (Nat × CollectionConfig)
  approvals : List ((Nat × Nat) × List Nat)
  ledger : Ledger
  attributesEnabled : Bool
deriving DecidableEq, Repr

/-- Outcome of an embedded dispatchable: `ok` with the new state, or `err`
with the state as it stands when the error is returned (raw storage
semantics — earlier writes are still visible in it). -/
inductive OpOut where
  | ok (s : NftsState)
  | err (e : Err) (s : NftsState)
deriving DecidableEq, Repr

/-- The state carried by an outcome. -/
def OpOut.state : OpOut → NftsState
  | .ok s => s
  | .err _ s => s

/-- The error carried by an outcome, if any. -/
def OpOut.errOf : OpOut → Option Err
  | .ok _ => none
  | .err e _ => some e

/-- Whether the outcome is a success. -/
def OpOut.isOk : OpOut → Bool
  | .ok _ => true
  | .err _ _ => false

/-- The approval set of an item (`ItemAttributesApprovalsOf::get`, whose
storage default is the empty set). -/
def approvalsOf (s : NftsState) (coll it : Nat) : List Nat :=
  (mapGet s.approvals (coll, it)).getD []

/-- Modelled from the spec: `get_collection_config` — the stored collection
settings, or an error when the config record is missing (the spec only
assumes it present; the lookup is fallible in the pallet). -/
def getCollectionConfig (s : NftsState) (coll : Nat) : Except Err CollectionConfig :=
  match mapGet s.collectionConfig coll with
  | none => .error .NoConfig
  | some c => .ok c

/-- Modelled from the spec: `get_item_config` — the stored item settings, or
`UnknownItem` when the per-item settings record is missing (the clear path's
NOTE comment in the source relies on exactly this fallibility). -/
def getItemConfig (s : NftsState) (coll it : Nat) : Except Err ItemConfig :=
  match mapGet s.itemConfig (coll, it) with
  | none => .error .UnknownItem
  | some c => .ok c

/-- `Pallet::is_valid_namespace` — the Authorization Check. -/
def isValidNamespace (s : NftsState) (origin : Nat) (ns : AttrNamespace)
    (coll : Nat) (collectionOwner : Nat) (maybeItem : Option Nat) :
    Except Err Bool :=
  match ns with
  | .CollectionOwner => .ok (decide (origin = collectionOwner))
  | .ItemOwner =>
    match maybeItem with
    | none => .ok false
    | some it =>
      match mapGet s.item (coll, it) with
      | none => .error .UnknownItem
      | some details => .ok (decide (origin = details.owner))
  | .Account who =>
    match maybeItem with
    | none => .ok false
    | some it => .ok (decide (who = origin) && decide (origin ∈ approvalsOf s coll it))
  | .Pallet => .ok false

/-- `DefaultNamespacePrecedence::namespace_precedence` — the first namespace of
`[CollectionOwner, ItemOwner, Pallet]` holding a record at the key, defaulting
to `CollectionOwner`. -/
def namespacePrecedence (s : NftsState) (coll it : Nat) (key : List Nat) :
    AttrNamespace :=
  (([AttrNamespace.CollectionOwner, .ItemOwner, .Pallet]).find?
      (fun ns => (mapGet s.Attribute (coll, some it, ns, key)).isSome)).getD
    .CollectionOwner

/-- The Lock Guard of `do_set_attribute`: only the `CollectionOwner` namespace
is guarded; collection-level attributes need the collection's
`UnlockedAttributes` setting, item-level ones need the item's setting, the
item-config lookup error being propagated (the `?` after `map` in the source). -/
def setLockCheck (s : NftsState) (ccfg : CollectionConfig) (ns : AttrNamespace)
    (coll : Nat) (maybeItem : Option Nat) : Option Err :=
  match ns with
  | .CollectionOwner =>
    match maybeItem with
    | none =>
      if ccfg.unlockedAttributes then none else some .LockedCollectionAttributes
    | some it =>
      match getItemConfig s coll it with
      | .error e => some e
      | .ok icfg =>
        if icfg.unlockedAttributes then none else some .LockedItemAttributes
  | _ => none

/-- The Lock Guard of `do_clear_attribute`: as for set, but a failing item-config
lookup is treated as unlocked (`map_or(false, ..)` in the source), and the
collection config is fetched here (its lookup error propagates). -/
def clearLockCheck (s : NftsState) (coll : Nat) (ns : AttrNamespace)
    (maybeItem : Option Nat) : Option Err :=
  match ns with
  | .CollectionOwner =>
    match maybeItem with
    | none =>
      match getCollectionConfig s coll with
      | .error e => some e
      | .ok ccfg =>
        if ccfg.unlockedAttributes then none
        else some .LockedCollectionAttributes
    | some it =>
      match getItemConfig s coll it with
      | .error _ => none
      | .ok icfg =>
        if icfg.unlockedAttributes then none else some .LockedItemAttributes
  | _ => none

/-- The deposit charged by `do_set_attribute`: zero unless the collection's
`DepositRequired` setting is on or the namespace is not `CollectionOwner`, else
`DepositPerByte * (key len + value len) + AttributeDepositBase` with saturating
balance arithmetic (the length sum is cast to `u32` in the source). -/
def setDepositAmount (cfg : Cfg) (ccfg : CollectionConfig) (ns : AttrNamespace)
    (keyLen valLen : Nat) : Nat :=
  if ccfg.depositRequired || decide (ns ≠ .CollectionOwner) then
    satAdd128 (satMul128 cfg.depositPerByte ((keyLen + valLen) % 4294967296))
      cfg.attributeDepositBase
  else 0

/-- The same-payer branch of the deposit reconciliation of `do_set_attribute`:
reserve the delta when the new deposit is larger, unreserve it when smaller,
touch nothing when equal. On failure the untouched ledger is returned with the
error. -/
def setReconcileSame (l : Ledger) (origin : Nat) (oldAmt dep : Nat) :
    Except (Err × Ledger) Ledger :=
  if oldAmt < dep then
    match l.reserve origin (dep - oldAmt) with
    | .error e => .error (e, l)
    | .ok l2 => .ok l2
  else if dep < oldAmt then .ok (l.unreserve origin (oldAmt - dep))
  else .ok l

/-- The deposit reconciliation of `do_set_attribute`: when the old record's
payer exists and differs from the caller, the old payer is unreserved first and
only then is the full new deposit reserved from the caller — so on reserve
failure the returned ledger already carries the unreserve. -/
def setReconcile (l : Ledger) (origin : Nat) (old : AttributeDeposit)
    (dep : Nat) : Except (Err × Ledger) Ledger :=
  match old.account with
  | some oldAcct =>
    if oldAcct = origin then setReconcileSame l origin old.amount dep
    else
      let l1 := l.unreserve oldAcct old.amount
      match l1.reserve origin dep with
      | .error e => .error (e, l1)
      | .ok l2 => .ok l2
  | none => setReconcileSame l origin old.amount dep

/-- The commit tail of `do_set_attribute`: record the payer (`None` in the
`CollectionOwner` namespace, where `owner_deposit` is adjusted instead), insert
the new record and the updated collection details. -/
def setCommit (origin coll : Nat) (maybeItem : Option Nat) (ns : AttrNamespace)
    (key value : List Nat) (cd : CollectionDetails) (dep oldAmt : Nat)
    (l : Ledger) (s : NftsState) : NftsState :=
  let cd2 : CollectionDetails :=
    match ns with
    | .CollectionOwner =>
      { cd with ownerDeposit := satAdd128 cd.ownerDeposit dep - oldAmt }
    | _ => cd
  let depositOwner : Option Nat :=
    match ns with
    | .CollectionOwner => none
    | _ => some origin
  { s with
    Attribute := mapInsert s.Attribute (coll, maybeItem, ns, key)
      (value, ⟨depositOwner, dep⟩),
    collection := mapInsert s.collection coll cd2,
    ledger := l }

/-- `Pallet::do_set_attribute`. -/
def doSetAttribute (cfg : Cfg) (origin coll : Nat) (maybeItem : Option Nat)
    (ns : AttrNamespace) (key value : List Nat) (s : NftsState) : OpOut :=
  if !s.attributesEnabled then .err .MethodDisabled s else
  match mapGet s.collection coll with
  | none => .err .UnknownCollection s
  | some cd =>
    match isValidNamespace s origin ns coll cd.owner maybeItem with
    | .error e => .err e s
    | .ok valid =>
      if !valid then .err .NoPermission s else
      match getCollectionConfig s coll with
      | .error e => .err e s
      | .ok ccfg =>
        match setLockCheck s ccfg ns coll maybeItem with
        | some e => .err e s
        | none =>
          let old := mapGet s.Attribute (coll, maybeItem, ns, key)
          let cd1 :=
            if old.isNone then { cd with attributes := satInc32 cd.attributes }
            else cd
          let oldDep : AttributeDeposit :=
            match old with
            | none => ⟨none, 0⟩
            | some (_, d) => d
          let dep := setDepositAmount cfg ccfg ns key.length value.length
          match setReconcile s.ledger origin oldDep dep with
          | .error (e, l1) => .err e { s with ledger := l1 }
          | .ok l2 =>
            .ok (setCommit origin coll maybeItem ns key value cd1 dep
                  oldDep.amount l2 s)

/-- `Pallet::do_force_set_attribute`: no feature gate, no authorization, no
lock guard; the old payer (when different from `set_as` and with nonzero
amount) is unreserved, the record is committed with deposit amount `0`. -/
def doForceSetAttribute (setAs : Option Nat) (coll : Nat)
    (maybeItem : Option Nat) (ns : AttrNamespace) (key value : List Nat)
    (s : NftsState) : OpOut :=
  match mapGet s.collection coll with
  | none => .err .UnknownCollection s
  | some cd =>
    let old := mapGet s.Attribute (coll, maybeItem, ns, key)
    let l1 :=
      match old with
      | some (_, dep) =>
        if dep.account ≠ setAs ∧ dep.amount ≠ 0 then
          match dep.account with
          | some a => s.ledger.unreserve a dep.amount
          | none => s.ledger
        else s.ledger
      | none => s.ledger
    let cd1 :=
      if old.isNone then { cd with attributes := satInc32 cd.attributes }
      else cd
    .ok { s with
          Attribute := mapInsert s.Attribute (coll, maybeItem, ns, key)
            (value, ⟨setAs, 0⟩),
          collection := mapInsert s.collection coll cd1,
          ledger := l1 }

/-- The commit tail of `do_clear_attribute` (after the record was already
taken out of the map, reflected in `s1`): decrement the counter, release the
collection owner's aggregate deposit in the `CollectionOwner` namespace, and
release the payer's deposit when a payer is recorded. -/
def clearFinish (coll : Nat) (ns : AttrNamespace) (dep : AttributeDeposit)
    (cd : CollectionDetails) (s1 : NftsState) : NftsState :=
  let cd1 : CollectionDetails := { cd with attributes := cd.attributes - 1 }
  let cdl :=
    match ns with
    | .CollectionOwner =>
      ({ cd1 with ownerDeposit := cd1.ownerDeposit - dep.amount },
        s1.ledger.unreserve cd.owner dep.amount)
    | _ => (cd1, s1.ledger)
  let l3 :=
    match dep.account with
    | some a => cdl.2.unreserve a dep.amount
    | none => cdl.2
  { s1 with collection := mapInsert s1.collection coll cdl.1, ledger := l3 }

/-- `Pallet::do_clear_attribute`. The record is taken out first
(`Attribute::take`); for a `Some` caller the Authorization Check runs only when
the caller is not the recorded payer, while the Lock Guard runs for every
`Some` caller; a `None` (root) caller skips the whole block. -/
def doClearAttribute (maybeCheckOwner : Option Nat) (coll : Nat)
    (maybeItem : Option Nat) (ns : AttrNamespace) (key : List Nat)
    (s : NftsState) : OpOut :=
  match mapGet s.Attribute (coll, maybeItem, ns, key) with
  | none => .err .AttributeNotFound s
  | some (_, dep) =>
    let s1 := { s with Attribute := mapRemove s.Attribute (coll, maybeItem, ns, key) }
    match mapGet s1.collection coll with
    | none => .err .UnknownCollection s1
    | some cd =>
      match maybeCheckOwner with
      | none => .ok (clearFinish coll ns dep cd s1)
      | some checkOwner =>
        let authRes : Option Err :=
          if dep.account = some checkOwner then none
          else
            match isValidNamespace s1 checkOwner ns coll cd.owner maybeItem with
            | .error e => some e
            | .ok true => none
            | .ok false => some .NoPermission
        match authRes with
        | some e => .err e s1
        | none =>
          match clearLockCheck s1 coll ns maybeItem with
          | some e => .err e s1
          | none => .ok (clearFinish coll ns dep cd s1)

/-- `Pallet::do_approve_item_attributes`: item-owner check, then
`BoundedBTreeSet::try_insert` of the delegate, which succeeds when the delegate
is already present or the set is below the bound, else fails
`ReachedApprovalLimit` (the `try_mutate` then writes nothing back). -/
def doApproveItemAttributes (cfg : Cfg) (origin coll it delegate : Nat)
    (s : NftsState) : OpOut :=
  if !s.attributesEnabled then .err .MethodDisabled s else
  match mapGet s.item (coll, it) with
  | none => .err .UnknownItem s
  | some details =>
    if origin ≠ details.owner then .err .NoPermission s else
    let apr := approvalsOf s coll it
    if delegate ∈ apr then
      .ok { s with approvals := mapInsert s.approvals (coll, it) apr }
    else if apr.length < cfg.approvalsLimit then
      .ok { s with approvals := mapInsert s.approvals (coll, it) (delegate :: apr) }
    else .err .ReachedApprovalLimit s

/-- Whether an attribute map key falls under the drain of
`do_cancel_item_attributes_approval`: same collection, this item, and the
delegate's `Account` namespace (`drain_prefix` over the first three key
components). -/
def inDrainScope (coll it delegate : Nat) (k : AttrKey) : Bool :=
  decide (k.1 = coll) && decide (k.2.1 = some it) &&
    decide (k.2.2.1 = AttrNamespace.Account delegate)

/-- `Pallet::do_cancel_item_attributes_approval`: item-owner check, removal of
the delegate from the approval set (buffered by `try_mutate`, so discarded on
error), a drain of every record under the delegate's `Account` namespace
(immediate storage writes), the witness comparison against the saturating
`u32` count, and finally the release of the summed deposit. -/
def doCancelItemAttributesApproval (origin coll it delegate : Nat)
    (witnessAccountAttributes : Nat) (s : NftsState) : OpOut :=
  if !s.attributesEnabled then .err .MethodDisabled s else
  match mapGet s.item (coll, it) with
  | none => .err .UnknownItem s
  | some details =>
    if origin ≠ details.owner then .err .NoPermission s else
    let apr := (approvalsOf s coll it).filter (fun a => decide (a ≠ delegate))
    let drained := s.Attribute.filter (fun p => inDrainScope coll it delegate p.1)
    let kept := s.Attribute.filter (fun p => !inDrainScope coll it delegate p.1)
    let count := drained.foldl (fun n _ => satInc32 n) 0
    let deposited := drained.foldl (fun b p => satAdd128 b p.2.2.amount) 0
    if witnessAccountAttributes < count then
      .err .BadWitness { s with Attribute := kept }
    else
      let l1 :=
        if deposited = 0 then s.ledger else s.ledger.unreserve delegate deposited
      .ok { s with
            Attribute := kept,
            approvals := mapInsert s.approvals (coll, it) apr,
            ledger := l1 }

/-! Basic lemmas about the association-list maps and the ledger. -/

theorem mapGet_mapRemove_self {κ ν : Type} [DecidableEq κ]
    (m : List (κ × ν)) (k : κ) : mapGet (mapRemove m k) k = none := by
  induction m with
  | nil => rfl
  | cons p rest ih =>
    obtain ⟨k', v⟩ := p
    by_cases h : k' = k
    · simpa [mapRemove, h] using ih
    · simpa [mapRemove, mapGet, h] using ih

theorem mapGet_mapRemove_ne {κ ν : Type} [DecidableEq κ]
    (m : List (κ × ν)) (k k2 : κ) (h : k2 ≠ k) :
    mapGet (mapRemove m k) k2 = mapGet m k2 := by
  induction m with
  | nil => rfl
  | cons p rest ih =>
    obtain ⟨k', v⟩ := p
    by_cases h' : k' = k
    · have hk2 : ¬(k' = k2) := fun e => h (e.symm.trans h')
      simp only [mapRemove, if_pos h', mapGet, if_neg hk2]
      exact ih
    · by_cases h2 : k' = k2 <;> simp [mapRemove, mapGet, h', h2, h, ih]

theorem mapGet_mapInsert_self {κ ν : Type} [DecidableEq κ]
    (m : List (κ × ν)) (k : κ) (v : ν) : mapGet (mapInsert m k v) k = some v := by
  simp [mapInsert, mapGet]

theorem mapGet_mapInsert_ne {κ ν : Type} [DecidableEq κ]
    (m : List (κ × ν)) (k k2 : κ) (v : ν) (h : k2 ≠ k) :
    mapGet (mapInsert m k v) k2 = mapGet m k2 := by
  have hk : ¬(k = k2) := fun e => h e.symm
  simp only [mapInsert, mapGet, if_neg hk]
  exact mapGet_mapRemove_ne m k k2 h

theorem unreserve_freeOf_self (l : Ledger) (a amt : Nat) :
    (l.unreserve a amt).freeOf a = l.freeOf a + min amt (l.reservedOf a) := by
  simp [Ledger.unreserve, Ledger.freeOf, mapGet_mapInsert_self]

theorem unreserve_freeOf_ne (l : Ledger) (a amt b : Nat) (h : b ≠ a) :
    (l.unreserve a amt).freeOf b = l.freeOf b := by
  simp [Ledger.unreserve, Ledger.freeOf, mapGet_mapInsert_ne _ _ _ _ h]

theorem unreserve_reservedOf_self (l : Ledger) (a amt : Nat) :
    (l.unreserve a amt).reservedOf a = l.reservedOf a - min amt (l.reservedOf a) := by
  simp [Ledger.unreserve, Ledger.reservedOf, mapGet_mapInsert_self]

theorem unreserve_reservedOf_ne (l : Ledger) (a amt b : Nat) (h : b ≠ a) :
    (l.unreserve a amt).reservedOf b = l.reservedOf b := by
  simp [Ledger.unreserve, Ledger.reservedOf, mapGet_mapInsert_ne _ _ _ _ h]

theorem unreserve_reservedOf_le (l : Ledger) (a amt b : Nat) :
    (l.unreserve a amt).reservedOf b ≤ l.reservedOf b := by
  by_cases h : b = a
  · subst h; rw [unreserve_reservedOf_self]; omega
  · rw [unreserve_reservedOf_ne _ _ _ _ h]

theorem foldl_satInc32 {α : Type} (l : List α) :
    ∀ n, n ≤ UMAX32 →
      l.foldl (fun m _ => satInc32 m) n = min (n + l.length) UMAX32 := by
  induction l with
  | nil =>
    intro n h
    simp only [List.foldl_nil, List.length_nil, Nat.add_zero]
    omega
  | cons x xs ih =>
    intro n h
    rw [List.foldl_cons, ih (satInc32 n) (by unfold satInc32; omega)]
    unfold satInc32
    simp only [List.length_cons]
    omega

/-! Concrete fixtures used by witnesses and counterexamples. -/

/-- A small pallet configuration: one unit per byte, base four, approval limit two. -/
def cfgW : Cfg := ⟨1, 4, 2⟩

/-- A populated base state: collection 0 owned by 3 with unlocked attributes and
no deposit requirement, item (0,1) owned by 7, delegate 9 approved on it, an
item-owner attribute under key `[1]` deposited by 5 with amount 10, and the
matching ledger reservations. -/
def sBase : NftsState :=
  { Attribute := [((0, some 1, .ItemOwner, [1]), ([2], ⟨some 5, 10⟩))],
    collection := [(0, ⟨3, 5, 0⟩)],
    item := [((0, 1), ⟨7⟩)],
    itemConfig := [((0, 1), ⟨true⟩)],
    collectionConfig := [(0, ⟨true, false⟩)],
    approvals := [((0, 1), [9])],
    ledger := ⟨[(7, 100), (5, 0)], [(5, 10)]⟩,
    attributesEnabled := true }

/-! The claims. -/

/-- C4: the default namespace resolver returns `CollectionOwner` when a record
exists there, else `ItemOwner` when one exists there, else `Pallet` when one
exists there, else `CollectionOwner` as the default; it never returns
`Account(_)`. It is a pure function of the state, so it has no side effects. -/
theorem c4_namespace_precedence (s : NftsState) (coll it : Nat) (key : List Nat) :
    (namespacePrecedence s coll it key =
      if (mapGet s.Attribute (coll, some it, .CollectionOwner, key)).isSome then
        .CollectionOwner
      else if (mapGet s.Attribute (coll, some it, .ItemOwner, key)).isSome then
        .ItemOwner
      else if (mapGet s.Attribute (coll, some it, .Pallet, key)).isSome then
        .Pallet
      else .CollectionOwner) ∧
    ∀ who, namespacePrecedence s coll it key ≠ .Account who := by
  unfold namespacePrecedence
  cases h1 : (mapGet s.Attribute (coll, some it, .CollectionOwner, key)).isSome <;>
  cases h2 : (mapGet s.Attribute (coll, some it, .ItemOwner, key)).isSome <;>
  cases h3 : (mapGet s.Attribute (coll, some it, .Pallet, key)).isSome <;>
    simp [List.find?, h1, h2, h3]

/-- C4 witness: on the base state, key `[1]` of item (0,1) resolves to the
`ItemOwner` namespace (the only namespace holding a record). -/
theorem c4_witness : namespacePrecedence sBase 0 1 [1] = .ItemOwner :=
  (c4_namespace_precedence sBase 0 1 [1]).1.trans (by decide)

/-- C5: the Authorization Check. `ItemOwner` namespace: with an item, fails
`UnknownItem` when the item record is absent and is true exactly for the item's
owner; without an item it is false. `Account(delegate)` namespace: true exactly
when the caller is the delegate and the delegate is in the item's approval set.
`Pallet` namespace: always false for ordinary callers. -/
theorem c5_is_valid_namespace (s : NftsState) (origin coll collectionOwner it : Nat) :
    (mapGet s.item (coll, it) = none →
      isValidNamespace s origin .ItemOwner coll collectionOwner (some it) =
        .error .UnknownItem) ∧
    (∀ d, mapGet s.item (coll, it) = some d →
      (isValidNamespace s origin .ItemOwner coll collectionOwner (some it) =
          .ok true ↔ origin = d.owner)) ∧
    (isValidNamespace s origin .ItemOwner coll collectionOwner none = .ok false) ∧
    (∀ delegate,
      (isValidNamespace s origin (.Account delegate) coll collectionOwner
          (some it) = .ok true ↔
        origin = delegate ∧ delegate ∈ approvalsOf s coll it)) ∧
    (∀ maybeItem,
      isValidNamespace s origin .Pallet coll collectionOwner maybeItem = .ok false) := by
  refine ⟨fun h => by simp [isValidNamespace, h], fun d h => ?_, by simp [isValidNamespace],
    fun delegate => ?_, fun maybeItem => by simp [isValidNamespace]⟩
  · simp [isValidNamespace, h]
  · constructor
    · intro h
      simp only [isValidNamespace, Except.ok.injEq, Bool.and_eq_true,
        decide_eq_true_eq] at h
      exact ⟨h.1.symm, h.1 ▸ h.2⟩
    · rintro ⟨rfl, hmem⟩
      simp [isValidNamespace, hmem]

/-- C5 witness: on the base state, caller 7 is the owner of item (0,1), so the
`ItemOwner` namespace authorizes it. -/
theorem c5_witness :
    isValidNamespace sBase 7 .ItemOwner 0 3 (some 1) = .ok true :=
  ((c5_is_valid_namespace sBase 7 0 3 1).2.1 ⟨7⟩ rfl).mpr rfl

/-- C10: `do_force_set_attribute` has no feature gate — it never fails
`MethodDisabled`, and with the `Attributes` feature disabled it still succeeds
on an existing collection, while `do_set_attribute`,
`do_approve_item_attributes` and `do_cancel_item_attributes_approval` all fail
`MethodDisabled` in that state. -/
theorem c10_force_set_no_feature_gate :
    (∀ setAs coll maybeItem ns key value s,
      (doForceSetAttribute setAs coll maybeItem ns key value s).errOf ≠
        some .MethodDisabled) ∧
    (∀ setAs coll maybeItem ns key value s cd, s.attributesEnabled = false →
      mapGet s.collection coll = some cd →
      (doForceSetAttribute setAs coll maybeItem ns key value s).isOk = true) ∧
    (∀ cfg origin coll maybeItem ns key value s, s.attributesEnabled = false →
      doSetAttribute cfg origin coll maybeItem ns key value s =
        .err .MethodDisabled s) ∧
    (∀ cfg origin coll it delegate s, s.attributesEnabled = false →
      doApproveItemAttributes cfg origin coll it delegate s =
        .err .MethodDisabled s) ∧
    (∀ origin coll it delegate w s, s.attributesEnabled = false →
      doCancelItemAttributesApproval origin coll it delegate w s =
        .err .MethodDisabled s) := by
  refine ⟨fun setAs coll maybeItem ns key value s => ?_,
    fun setAs coll maybeItem ns key value s cd _ hcd => ?_,
    fun cfg origin coll maybeItem ns key value s h => by
      simp [doSetAttribute, h],
    fun cfg origin coll it delegate s h => by
      simp [doApproveItemAttributes, h],
    fun origin coll it delegate w s h => by
      simp [doCancelItemAttributesApproval, h]⟩
  · unfold doForceSetAttribute
    cases mapGet s.collection coll <;> simp [OpOut.errOf]
  · simp [doForceSetAttribute, hcd, OpOut.isOk]

/-- C10 witness: with the feature disabled on the base state, force-set
succeeds while set fails `MethodDisabled`. -/
theorem c10_witness :
    (doForceSetAttribute none 0 none .Pallet [1] [2]
      { sBase with attributesEnabled := false }).isOk = true ∧
    doSetAttribute cfgW 3 0 none .CollectionOwner [1] [2]
        { sBase with attributesEnabled := false } =
      .err .MethodDisabled { sBase with attributesEnabled := false } :=
  ⟨c10_force_set_no_feature_gate.2.1 none 0 none .Pallet [1] [2]
      { sBase with attributesEnabled := false } ⟨3, 5, 0⟩ rfl rfl,
    c10_force_set_no_feature_gate.2.2.1 cfgW 3 0 none .CollectionOwner [1] [2]
      { sBase with attributesEnabled := false } rfl⟩

/-- C9: the approval set is bounded. First: approving a new delegate on an
item whose set already holds `approvalsLimit` delegates fails
`ReachedApprovalLimit` with the state left unchanged. Second: any single
approve call preserves the size bound on every approval set, so no sequence of
approve calls can grow a set past the bound. -/
theorem c9_approval_limit (cfg : Cfg) (origin coll it delegate : Nat)
    (s : NftsState) :
    (∀ d, s.attributesEnabled = true →
      mapGet s.item (coll, it) = some d → origin = d.owner →
      (approvalsOf s coll it).length = cfg.approvalsLimit →
      delegate ∉ approvalsOf s coll it →
      doApproveItemAttributes cfg origin coll it delegate s =
        .err .ReachedApprovalLimit s) ∧
    ((∀ c i, (approvalsOf s c i).length ≤ cfg.approvalsLimit) →
      ∀ c i,
        (approvalsOf (doApproveItemAttributes cfg origin coll it delegate s).state
            c i).length ≤ cfg.approvalsLimit) := by
  constructor
  · intro d henb hitem howner hlen hmem
    simp [doApproveItemAttributes, henb, hitem, howner, hmem, hlen]
  · intro hb c i
    cases henb : s.attributesEnabled
    · simpa [doApproveItemAttributes, henb, OpOut.state] using hb c i
    · cases hitem : mapGet s.item (coll, it) with
      | none =>
        simpa [doApproveItemAttributes, henb, hitem, OpOut.state] using hb c i
      | some d =>
        by_cases howner : origin ≠ d.owner
        · simpa [doApproveItemAttributes, henb, hitem, howner, OpOut.state]
            using hb c i
        · by_cases hmem : delegate ∈ approvalsOf s coll it
          · simp only [doApproveItemAttributes, henb, hitem, howner, hmem,
              Bool.not_true, Bool.false_eq_true, if_false, ite_true, ite_false,
              if_neg howner, if_pos hmem, OpOut.state]
            simp only [approvalsOf] at hb ⊢
            by_cases hk : (c, i) = (coll, it)
            · rw [hk, mapGet_mapInsert_self]
              exact hb coll it
            · rw [mapGet_mapInsert_ne _ _ _ _ hk]
              exact hb c i
          · by_cases hlt : (approvalsOf s coll it).length < cfg.approvalsLimit
            · simp only [doApproveItemAttributes, henb, hitem, howner, hmem,
                hlt, Bool.not_true, Bool.false_eq_true, if_false, ite_true,
                ite_false, if_neg howner, if_neg hmem, if_pos hlt, OpOut.state]
              simp only [approvalsOf] at hb hlt ⊢
              by_cases hk : (c, i) = (coll, it)
              · rw [hk, mapGet_mapInsert_self]
                simp only [Option.getD_some, List.length_cons]
                omega
              · rw [mapGet_mapInsert_ne _ _ _ _ hk]
                exact hb c i
            · simpa [doApproveItemAttributes, henb, hitem, howner, hmem, hlt,
                OpOut.state] using hb c i

/-- C9 witness: with limit two and approvals `[8, 9]` on item (0,1), approving
the fresh delegate 11 fails `ReachedApprovalLimit` and leaves the state as it
was. -/
theorem c9_witness :
    doApproveItemAttributes cfgW 7 0 1 11
        { sBase with approvals := [((0, 1), [8, 9])] } =
      .err .ReachedApprovalLimit { sBase with approvals := [((0, 1), [8, 9])] } :=
  (c9_approval_limit cfgW 7 0 1 11
      { sBase with approvals := [((0, 1), [8, 9])] }).1
    ⟨7⟩ rfl rfl rfl rfl (by decide)

/-- The state used by the C7 witness: one attribute of item (0,1) under
delegate 5's `Account` namespace, deposited by 5 with amount 10. -/
def sC7 : NftsState :=
  { sBase with Attribute := [((0, some 1, .Account 5, [1]), ([2], ⟨some 5, 10⟩))] }

/-- C7: `do_cancel_item_attributes_approval` (with the feature enabled, the
item present and the caller its owner) fails `BadWitness` exactly when the
number of drained `Account(delegate)` records exceeds the caller's witness
bound — draining at most the witness succeeds — and on the `BadWitness` path
the error state already has the drained records removed from the attribute
map. The drained count is kept in a `u32`, whence the bound hypothesis on the
number of matching records. -/
theorem c7_cancel_bad_witness (origin coll it delegate w : Nat) (s : NftsState)
    (d : ItemDetails)
    (henb : s.attributesEnabled = true)
    (hitem : mapGet s.item (coll, it) = some d)
    (howner : origin = d.owner)
    (hlen : (s.Attribute.filter
        (fun p => inDrainScope coll it delegate p.1)).length ≤ UMAX32) :
    (w < (s.Attribute.filter
        (fun p => inDrainScope coll it delegate p.1)).length →
      doCancelItemAttributesApproval origin coll it delegate w s =
        .err .BadWitness
          { s with Attribute :=
              s.Attribute.filter (fun p => !inDrainScope coll it delegate p.1) }) ∧
    ((s.Attribute.filter
        (fun p => inDrainScope coll it delegate p.1)).length ≤ w →
      (doCancelItemAttributesApproval origin coll it delegate w s).isOk = true ∧
      (doCancelItemAttributesApproval origin coll it delegate w s).state.Attribute =
        s.Attribute.filter (fun p => !inDrainScope coll it delegate p.1)) := by
  have hcount :
      (s.Attribute.filter (fun p => inDrainScope coll it delegate p.1)).foldl
          (fun n _ => satInc32 n) 0 =
        (s.Attribute.filter (fun p => inDrainScope coll it delegate p.1)).length := by
    rw [foldl_satInc32 _ 0 (Nat.zero_le _)]
    omega
  constructor
  · intro hw
    simp [doCancelItemAttributesApproval, henb, hitem, howner, hcount, hw]
  · intro hw
    have hw' :
        ¬(w < (s.Attribute.filter
          (fun p => inDrainScope coll it delegate p.1)).length) := by omega
    simp [doCancelItemAttributesApproval, henb, hitem, howner, hcount, hw',
      OpOut.isOk, OpOut.state]

/-- C7 witness: cancelling delegate 5 with witness bound zero while one record
is drained fails `BadWitness`, with the record already removed in the error
state; witness bound one succeeds. -/
theorem c7_witness :
    doCancelItemAttributesApproval 7 0 1 5 0 sC7 =
      .err .BadWitness { sC7 with Attribute := [] } ∧
    (doCancelItemAttributesApproval 7 0 1 5 1 sC7).isOk = true := by
  refine ⟨?_, ((c7_cancel_bad_witness 7 0 1 5 1 sC7 ⟨7⟩ rfl rfl rfl
    (by decide)).2 (by decide)).1⟩
  have h := (c7_cancel_bad_witness 7 0 1 5 0 sC7 ⟨7⟩ rfl rfl rfl (by decide)).1
    (by decide)
  exact h.trans (by decide)

/-- C8: every successful `do_force_set_attribute` commits the record with the
supplied payer and deposit amount zero; when a prior record has a payer
different from the supplied one and a nonzero amount, that payer is unreserved
by that amount; no account's reserved balance ever grows; and the collection's
attribute counter is incremented (saturating at the `u32` maximum) exactly
when no prior record existed at the key. -/
theorem c8_force_set_effects (setAs : Option Nat) (coll : Nat)
    (maybeItem : Option Nat) (ns : AttrNamespace) (key value : List Nat)
    (s s2 : NftsState) (cd : CollectionDetails)
    (hcd : mapGet s.collection coll = some cd)
    (hok : doForceSetAttribute setAs coll maybeItem ns key value s = .ok s2) :
    mapGet s2.Attribute (coll, maybeItem, ns, key) = some (value, ⟨setAs, 0⟩) ∧
    (∀ v0 p amt,
      mapGet s.Attribute (coll, maybeItem, ns, key) = some (v0, ⟨some p, amt⟩) →
      some p ≠ setAs → amt ≠ 0 → s2.ledger = s.ledger.unreserve p amt) ∧
    (∀ a, s2.ledger.reservedOf a ≤ s.ledger.reservedOf a) ∧
    (mapGet s2.collection coll).map CollectionDetails.attributes =
      some (if (mapGet s.Attribute (coll, maybeItem, ns, key)).isNone then
              satInc32 cd.attributes
            else cd.attributes) := by
  simp only [doForceSetAttribute, hcd, OpOut.ok.injEq] at hok
  subst hok
  refine ⟨mapGet_mapInsert_self _ _ _, ?_, ?_, ?_⟩
  · intro v0 p amt hold hne hamt
    simp [hold, hne, hamt]
  · intro a
    cases hold : mapGet s.Attribute (coll, maybeItem, ns, key) with
    | none => simp [hold]
    | some pv =>
      obtain ⟨v0, dep⟩ := pv
      simp only [hold]
      by_cases hcond : dep.account ≠ setAs ∧ dep.amount ≠ 0
      · rw [if_pos hcond]
        cases hacct : dep.account with
        | none => simp
        | some p =>
          simp only []
          exact unreserve_reservedOf_le _ _ _ _
      · rw [if_neg hcond]
  · rw [mapGet_mapInsert_self]
    cases hold : (mapGet s.Attribute (coll, maybeItem, ns, key)).isNone <;>
      simp [hold]

/-- C8 witness: force-setting over the record paid by 5 (amount 10) with payer
`None` commits value `[7]` with a zero deposit. -/
theorem c8_witness :
    mapGet (doForceSetAttribute none 0 (some 1) .ItemOwner [1] [7] sBase).state.Attribute
      (0, some 1, .ItemOwner, [1]) = some ([7], ⟨none, 0⟩) :=
  (c8_force_set_effects none 0 (some 1) .ItemOwner [1] [7] sBase _ ⟨3, 5, 0⟩
    rfl rfl).1

/-- Inversion of a successful `do_set_attribute`: the collection and its
config were found, every check passed, and the final state is the commit tail
applied to the computed counter update, deposit and reconciled ledger. -/
theorem setAttribute_ok_inv (cfg : Cfg) (origin coll : Nat)
    (maybeItem : Option Nat) (ns : AttrNamespace) (key value : List Nat)
    (s s2 : NftsState)
    (hok : doSetAttribute cfg origin coll maybeItem ns key value s = .ok s2) :
    ∃ cd ccfg l2,
      mapGet s.collection coll = some cd ∧
      getCollectionConfig s coll = .ok ccfg ∧
      s2 = setCommit origin coll maybeItem ns key value
        (if (mapGet s.Attribute (coll, maybeItem, ns, key)).isNone then
          { cd with attributes := satInc32 cd.attributes }
        else cd)
        (setDepositAmount cfg ccfg ns key.length value.length)
        ((match mapGet s.Attribute (coll, maybeItem, ns, key) with
          | none => (⟨none, 0⟩ : AttributeDeposit)
          | some (_, d) => d)).amount l2 s := by
  unfold doSetAttribute at hok
  split at hok
  · exact absurd hok (by simp)
  split at hok
  · exact absurd hok (by simp)
  case _ cd hcd =>
  split at hok
  · exact absurd hok (by simp)
  case _ valid hval =>
  split at hok
  · exact absurd hok (by simp)
  split at hok
  · exact absurd hok (by simp)
  case _ ccfg hccfg =>
  split at hok
  · exact absurd hok (by simp)
  cases hrec : setReconcile s.ledger origin
      (match mapGet s.Attribute (coll, maybeItem, ns, key) with
        | none => (⟨none, 0⟩ : AttributeDeposit)
        | some (_, d) => d)
      (setDepositAmount cfg ccfg ns key.length value.length) with
  | error el =>
    obtain ⟨e, l1⟩ := el
    simp only [hrec] at hok
    exact absurd hok (by simp)
  | ok l2 =>
    simp only [hrec, OpOut.ok.injEq] at hok
    exact ⟨cd, ccfg, l2, hcd, hccfg, hok.symm⟩

/-- The state used by the C6 counterexample: an empty attribute map and a
collection whose attribute counter already sits at the `u32` maximum. -/
def sC6 : NftsState :=
  { Attribute := [],
    collection := [(0, ⟨3, 4294967295, 0⟩)],
    item := [],
    itemConfig := [],
    collectionConfig := [(0, ⟨true, false⟩)],
    approvals := [],
    ledger := ⟨[], []⟩,
    attributesEnabled := true }

/-- C6 counterexample: a successful `do_set_attribute` on a previously absent
key whose collection counter is `u32::MAX` leaves the counter at `u32::MAX`
(`saturating_inc`), not at the prior value plus one. -/
theorem c6_counterexample :
    (doSetAttribute cfgW 3 0 none .CollectionOwner [1] [2] sC6).isOk = true ∧
    mapGet sC6.Attribute (0, none, .CollectionOwner, [1]) = none ∧
    (mapGet sC6.collection 0).map CollectionDetails.attributes =
      some 4294967295 ∧
    (mapGet (doSetAttribute cfgW 3 0 none .CollectionOwner [1] [2]
        sC6).state.collection 0).map CollectionDetails.attributes =
      some 4294967295 ∧
    (4294967295 : Nat) ≠ 4294967295 + 1 := by
  refine ⟨by decide, by decide, by decide, by decide, by decide⟩

/-- C6 (amended): after every successful `do_set_attribute`, the collection's
attribute counter equals the saturating `u32` increment of its prior value
when no record existed at the full key (so the prior value plus one whenever
the counter was below `u32::MAX`), and is unchanged when a record existed. -/
theorem c6_amended_attributes_counter (cfg : Cfg) (origin coll : Nat)
    (maybeItem : Option Nat) (ns : AttrNamespace) (key value : List Nat)
    (s s2 : NftsState) (cd : CollectionDetails)
    (hcd : mapGet s.collection coll = some cd)
    (hok : doSetAttribute cfg origin coll maybeItem ns key value s = .ok s2) :
    (mapGet s2.collection coll).map CollectionDetails.attributes =
      some (if (mapGet s.Attribute (coll, maybeItem, ns, key)).isNone then
              satInc32 cd.attributes
            else cd.attributes) := by
  obtain ⟨cd', ccfg, l2, hcd', hccfg, hs2⟩ :=
    setAttribute_ok_inv _ _ _ _ _ _ _ _ _ hok
  rw [hcd] at hcd'
  injection hcd' with hcd2
  subst hcd2
  subst hs2
  cases hold : (mapGet s.Attribute (coll, maybeItem, ns, key)).isNone <;>
    cases ns <;> simp [setCommit, mapGet_mapInsert_self, hold]

/-- C6 witness: on the base state (counter five, key absent), a successful set
leaves the counter at six. -/
theorem c6_witness :
    (mapGet (doSetAttribute cfgW 3 0 none .CollectionOwner [1] [2]
        sBase).state.collection 0).map CollectionDetails.attributes =
      some 6 :=
  (c6_amended_attributes_counter cfgW 3 0 none .CollectionOwner [1] [2] sBase
    (doSetAttribute cfgW 3 0 none .CollectionOwner [1] [2] sBase).state
    ⟨3, 5, 0⟩ rfl rfl).trans (by decide)

/-- The state used by C3: as the base state, but the caller 7 has no free
funds, while account 5 still holds the 10-unit reservation backing the old
record. -/
def sC3 : NftsState := { sBase with ledger := ⟨[(7, 0), (5, 0)], [(5, 10)]⟩ }

/-- C3 counterexample: a `do_set_attribute` over a record paid by a different
payer, aborting with `InsufficientFunds` on the caller's reserve, returns with
the old payer's reservation already released (10 before, 0 in the returned
state) — the ledger is not exactly as it was before the call. -/
theorem c3_counterexample :
    (doSetAttribute cfgW 7 0 (some 1) .ItemOwner [1] [9, 9] sC3).errOf =
      some .InsufficientFunds ∧
    sC3.ledger.reservedOf 5 = 10 ∧
    (doSetAttribute cfgW 7 0 (some 1) .ItemOwner [1] [9, 9]
        sC3).state.ledger.reservedOf 5 = 0 := by
  refine ⟨by decide, by decide, by decide⟩

/-- C3 (amended): when the prior record's payer `p` differs from the caller
and reserving the new deposit fails with `InsufficientFunds`, the operation
aborts before any map or collection write — the returned state differs from
the initial one only in the ledger — and the caller's free and reserved
balances are untouched; but the old payer's unreserve has already been applied
when the error returns (undoing it is left to the dispatch-level transaction
machinery outside this subsystem). -/
theorem c3_amended_reserve_failure (cfg : Cfg) (origin coll : Nat)
    (maybeItem : Option Nat) (ns : AttrNamespace) (key value : List Nat)
    (s : NftsState) (cd : CollectionDetails) (ccfg : CollectionConfig)
    (v0 : List Nat) (p amt : Nat)
    (henb : s.attributesEnabled = true)
    (hcd : mapGet s.collection coll = some cd)
    (hval : isValidNamespace s origin ns coll cd.owner maybeItem = .ok true)
    (hccfg : getCollectionConfig s coll = .ok ccfg)
    (hlock : setLockCheck s ccfg ns coll maybeItem = none)
    (hold : mapGet s.Attribute (coll, maybeItem, ns, key) =
      some (v0, ⟨some p, amt⟩))
    (hne : p ≠ origin)
    (hpoor : s.ledger.freeOf origin <
      setDepositAmount cfg ccfg ns key.length value.length) :
    doSetAttribute cfg origin coll maybeItem ns key value s =
      .err .InsufficientFunds { s with ledger := s.ledger.unreserve p amt } ∧
    (s.ledger.unreserve p amt).freeOf origin = s.ledger.freeOf origin ∧
    (s.ledger.unreserve p amt).reservedOf origin =
      s.ledger.reservedOf origin := by
  have hfree : (s.ledger.unreserve p amt).freeOf origin = s.ledger.freeOf origin :=
    unreserve_freeOf_ne _ _ _ _ (Ne.symm hne)
  refine ⟨?_, hfree, unreserve_reservedOf_ne _ _ _ _ (Ne.symm hne)⟩
  have hres : (s.ledger.unreserve p amt).reserve origin
      (setDepositAmount cfg ccfg ns key.length value.length) =
      .error .InsufficientFunds := by
    unfold Ledger.reserve
    rw [hfree, if_pos hpoor]
  have hrec : setReconcile s.ledger origin ⟨some p, amt⟩
      (setDepositAmount cfg ccfg ns key.length value.length) =
      .error (.InsufficientFunds, s.ledger.unreserve p amt) := by
    unfold setReconcile
    simp only [if_neg hne, hres]
  simp [doSetAttribute, henb, hcd, hval, hccfg, hlock, hold, hrec]

/-- C3 witness: on the concrete C3 state, the failed set returns with the old
payer 5 unreserved and the caller 7 untouched. -/
theorem c3_witness :
    doSetAttribute cfgW 7 0 (some 1) .ItemOwner [1] [9, 9] sC3 =
      .err .InsufficientFunds
        { sC3 with ledger := ⟨[(5, 10), (7, 0)], [(5, 0)]⟩ } :=
  ((c3_amended_reserve_failure cfgW 7 0 (some 1) .ItemOwner [1] [9, 9] sC3
      ⟨3, 5, 0⟩ ⟨true, false⟩ [2] 5 10 rfl rfl rfl rfl rfl rfl (by decide)
      (by decide)).1).trans (by decide)

/-- The clear-path Lock Guard only reads the config maps, so removing an
attribute record beforehand does not change its verdict. -/
theorem clearLockCheck_attrUpdate (s : NftsState) (X : List (AttrKey × AttrVal))
    (coll : Nat) (ns : AttrNamespace) (maybeItem : Option Nat) :
    clearLockCheck { s with Attribute := X } coll ns maybeItem =
      clearLockCheck s coll ns maybeItem := by
  cases ns <;> cases maybeItem <;> rfl

/-- The state used by the C1 counterexample's first half: a collection-level
`CollectionOwner` record whose recorded payer is account 4 (as a root
force-set produces), with the collection's attributes locked. -/
def sC1a : NftsState :=
  { sBase with
    Attribute := [((0, none, .CollectionOwner, [1]), ([2], ⟨some 4, 0⟩))],
    collectionConfig := [(0, ⟨false, false⟩)] }

/-- The state used by the C1 counterexample's second half: the attribute
record exists but the collection record does not. -/
def sC1b : NftsState := { sBase with collection := [] }

/-- C1 counterexample: clearing one's own deposited attribute does run the
Lock Guard — the payer-caller 4 fails `LockedCollectionAttributes` on a locked
collection — and even a root clear fails `UnknownCollection` when the
collection record is absent, so the operation does not succeed in either
case. -/
theorem c1_counterexample :
    mapGet sC1a.Attribute (0, none, .CollectionOwner, [1]) =
      some ([2], ⟨some 4, 0⟩) ∧
    (doClearAttribute (some 4) 0 none .CollectionOwner [1] sC1a).errOf =
      some .LockedCollectionAttributes ∧
    mapGet sC1b.Attribute (0, some 1, .ItemOwner, [1]) =
      some ([2], ⟨some 5, 10⟩) ∧
    (doClearAttribute none 0 (some 1) .ItemOwner [1] sC1b).errOf =
      some .UnknownCollection := by
  refine ⟨by decide, by decide, by decide, by decide⟩

/-- C1 (amended): for a clear of an existing record whose collection record
exists, a `None` (root) caller skips both the Authorization Check and the Lock
Guard and succeeds with the full clear effects regardless of any setting or
standing; a caller equal to the record's payer skips only the Authorization
Check — the Lock Guard still runs, and the clear succeeds (with the same
effects) whenever it passes, regardless of the caller's standing. The record
is removed and the collection counter decremented (saturating at zero). -/
theorem c1_amended_clear_skip (coll : Nat) (maybeItem : Option Nat)
    (ns : AttrNamespace) (key : List Nat) (s : NftsState) (v0 : List Nat)
    (dep : AttributeDeposit) (cd : CollectionDetails)
    (hrec : mapGet s.Attribute (coll, maybeItem, ns, key) = some (v0, dep))
    (hcd : mapGet s.collection coll = some cd) :
    (doClearAttribute none coll maybeItem ns key s =
      .ok (clearFinish coll ns dep cd
        { s with Attribute := mapRemove s.Attribute (coll, maybeItem, ns, key) })) ∧
    (∀ c, dep.account = some c →
      clearLockCheck s coll ns maybeItem = none →
      doClearAttribute (some c) coll maybeItem ns key s =
        .ok (clearFinish coll ns dep cd
          { s with Attribute := mapRemove s.Attribute (coll, maybeItem, ns, key) })) ∧
    (mapGet (clearFinish coll ns dep cd
        { s with Attribute := mapRemove s.Attribute (coll, maybeItem, ns, key) }).Attribute
      (coll, maybeItem, ns, key) = none) ∧
    ((mapGet (clearFinish coll ns dep cd
        { s with Attribute := mapRemove s.Attribute (coll, maybeItem, ns, key) }).collection
      coll).map CollectionDetails.attributes = some (cd.attributes - 1)) := by
  refine ⟨?_, ?_, ?_, ?_⟩
  · simp [doClearAttribute, hrec, hcd]
  · intro c hacc hlock
    simp [doClearAttribute, hrec, hcd, hacc, clearLockCheck_attrUpdate, hlock]
  · simp [clearFinish, mapGet_mapRemove_self]
  · cases ns <;> simp [clearFinish, mapGet_mapInsert_self]

/-- C1 witness: a root clear of the item-owner record on the base state
succeeds, removing the record, decrementing the counter from five to four and
returning payer 5's ten units. -/
theorem c1_witness :
    doClearAttribute none 0 (some 1) .ItemOwner [1] sBase =
      .ok { sBase with
            Attribute := [],
            collection := [(0, ⟨3, 4, 0⟩)],
            ledger := ⟨[(5, 10), (7, 100)], [(5, 0)]⟩ } :=
  ((c1_amended_clear_skip 0 (some 1) .ItemOwner [1] sBase [2] ⟨some 5, 10⟩
      ⟨3, 5, 0⟩ rfl rfl).1).trans (by decide)

/-- The state used by the C2 counterexample and the set half of its witness:
the base state with the per-item settings record removed. -/
def sC2 : NftsState := { sBase with itemConfig := [] }

/-- The state used by the clear half of the C2 witness: no per-item settings
record, and a `CollectionOwner`-namespace item attribute to clear. -/
def sC2c : NftsState :=
  { sBase with
    itemConfig := [],
    Attribute := [((0, some 1, .CollectionOwner, [1]), ([2], ⟨none, 0⟩))] }

/-- C2 counterexample: with the per-item settings record absent,
`do_set_attribute` of a `CollectionOwner` item attribute does not proceed — it
fails with the item-config lookup error (`?` after `map` in the source) — so
set and clear do not both treat the missing record as unlocked. -/
theorem c2_counterexample :
    mapGet sC2.itemConfig (0, 1) = none ∧
    doSetAttribute cfgW 3 0 (some 1) .CollectionOwner [1] [2] sC2 =
      .err .UnknownItem sC2 := by
  refine ⟨by decide, by decide⟩

/-- C2 (amended): when the per-item settings record is absent,
`do_clear_attribute` treats the item as unlocked — its Lock Guard passes and
an authorized clear of a `CollectionOwner` item attribute succeeds — while
`do_set_attribute` instead fails with the item-config lookup error
(`UnknownItem` in this model) before reaching the write. -/
theorem c2_amended_missing_item_config (cfg : Cfg) (origin coll it : Nat)
    (key value : List Nat) (s : NftsState) (cd : CollectionDetails)
    (hic : mapGet s.itemConfig (coll, it) = none) :
    (s.attributesEnabled = true → mapGet s.collection coll = some cd →
      origin = cd.owner → ∀ ccfg, getCollectionConfig s coll = .ok ccfg →
      doSetAttribute cfg origin coll (some it) .CollectionOwner key value s =
        .err .UnknownItem s) ∧
    (clearLockCheck s coll .CollectionOwner (some it) = none) ∧
    (∀ v0 dep,
      mapGet s.Attribute (coll, some it, .CollectionOwner, key) = some (v0, dep) →
      mapGet s.collection coll = some cd →
      (doClearAttribute (some cd.owner) coll (some it) .CollectionOwner key
        s).isOk = true) := by
  refine ⟨?_, ?_, ?_⟩
  · intro henb hcd horigin ccfg hccfg
    have hlock : setLockCheck s ccfg .CollectionOwner coll (some it) =
        some .UnknownItem := by
      simp [setLockCheck, getItemConfig, hic]
    simp [doSetAttribute, henb, hcd, hccfg, hlock, isValidNamespace, horigin]
  · simp [clearLockCheck, getItemConfig, hic]
  · intro v0 dep hrec hcd
    simp [doClearAttribute, hrec, hcd, isValidNamespace, clearLockCheck,
      getItemConfig, hic, OpOut.isOk]

/-- C2 witness: on the concrete states, the set fails `UnknownItem` while the
authorized clear succeeds. -/
theorem c2_witness :
    doSetAttribute cfgW 3 0 (some 1) .CollectionOwner [1] [2] sC2 =
      .err .UnknownItem sC2 ∧
    (doClearAttribute (some 3) 0 (some 1) .CollectionOwner [1] sC2c).isOk =
      true :=
  ⟨(c2_amended_missing_item_config cfgW 3 0 1 [1] [2] sC2 ⟨3, 5, 0⟩ rfl).1
      rfl rfl rfl ⟨true, false⟩ rfl,
    (c2_amended_missing_item_config cfgW 3 0 1 [1] [] sC2c ⟨3, 5, 0⟩ rfl).2.2
      [2] ⟨none, 0⟩ rfl rfl⟩

end NftsAttributes
